import Mathlib

/-!
Shallow embedding of the darktable tone-curve module from the excerpt
(the `iop/tonecurve.c` part of the source file).  Floating-point values are
modelled by exact rationals; C integer casts and the glib `CLAMP` macro are
translated literally.  The helpers `dt_iop_estimate_exp`, `dt_iop_eval_exp`
and `dt_draw_curve_calc_values` are declared in headers outside the excerpt;
they are modelled from the spec, with their transcendental cores (the
log-space exponent fit and the power-function evaluation) kept as explicit
function parameters so that no behaviour is invented for them.
-/

namespace Tonecurve

/-- C cast `(int)q` of a floating value: truncation toward zero. -/
def cint (q : ℚ) : ℤ := if q < 0 then ⌈q⌉ else ⌊q⌋

/-- glib `CLAMP(x, low, high)` on integers:
`(((x) > (high)) ? (high) : (((x) < (low)) ? (low) : (x)))`. -/
def iCLAMP (v lo hi : ℤ) : ℤ := if hi < v then hi else if v < lo then lo else v

/-- glib `CLAMP(x, low, high)` on rationals. -/
def rCLAMP (v lo hi : ℚ) : ℚ := if hi < v then hi else if v < lo then lo else v

/-- Table index `CLAMP((int)q, 0, 0xffff)` as a natural number; the caller
passes the already scaled value (`L_in*0xffff`, `x[i]*0x10000`, ...). -/
def tblIdx (q : ℚ) : ℕ := (iCLAMP (cint q) 0 65535).toNat

/-- Channel indices `ch_L`, `ch_a`, `ch_b` of `tonecurve_channel_t`. -/
abbrev ch_L : Fin 3 := 0

abbrev ch_a : Fin 3 := 1

abbrev ch_b : Fin 3 := 2

/-- Spline-family tag of `dt_draw_curve_new`. -/
inductive CurveType where
  | CUBIC_SPLINE : CurveType
  | CATMULL_ROM : CurveType
  | MONOTONE_HERMITE : CurveType
deriving DecidableEq

/-- One control point, `dt_iop_tonecurve_node_t`. -/
structure TonecurveNode where
  x : ℚ
  y : ℚ
deriving DecidableEq

instance : Inhabited TonecurveNode := ⟨⟨0, 0⟩⟩

/-- Record `dt_iop_tonecurve_params_t`: three per-channel node lists (the list length
is `tonecurve_nodes[ch]`), spline types, the autoscale flag and the preset. -/
structure TonecurveParams where
  tonecurve : Fin 3 → List TonecurveNode
  tonecurve_type : Fin 3 → CurveType
  tonecurve_autoscale_ab : ℤ
  tonecurve_preset : ℤ

/-- One 4-channel pixel of the Lab image buffer. -/
structure Pixel where
  c0 : ℚ
  c1 : ℚ
  c2 : ℚ
  c3 : ℚ
deriving DecidableEq

instance : Inhabited Pixel := ⟨⟨0, 0, 0, 0⟩⟩

/-- Record `dt_iop_tonecurve_data_t`: the three 65536-entry lookup tables, the three
extrapolation coefficients and the autoscale flag read by `process`. -/
structure TonecurveData where
  table : Fin 3 → ℕ → ℚ
  unbounded_coeffs : Fin 3 → ℚ
  autoscale_ab : ℤ

/-- Per-pixel body of `process`.  `evalExp` stands for `dt_iop_eval_exp`
(declared outside the excerpt), passed as a parameter. -/
def processPixel (evalExp : (Fin 3 → ℚ) → ℚ → ℚ) (d : TonecurveData)
    (pin : Pixel) : Pixel :=
  let xm : ℚ := 1 / d.unbounded_coeffs 0
  let low_approximation : ℚ := d.table 0 (tblIdx ((1 / 100 : ℚ) * 65535))
  let L_in : ℚ := pin.c0 / 100
  let out0 : ℚ :=
    if L_in < xm then d.table ch_L (tblIdx (L_in * 65535))
    else evalExp d.unbounded_coeffs L_in
  if d.autoscale_ab = 0 then
    let a_in : ℚ := (pin.c1 + 128) / 256
    let b_in : ℚ := (pin.c2 + 128) / 256
    { c0 := out0, c1 := d.table ch_a (tblIdx (a_in * 65535)),
      c2 := d.table ch_b (tblIdx (b_in * 65535)), c3 := pin.c3 }
  else if 1 / 100 < L_in then
    { c0 := out0, c1 := pin.c1 * out0 / pin.c0,
      c2 := pin.c2 * out0 / pin.c0, c3 := pin.c3 }
  else
    { c0 := pin.c0 * low_approximation, c1 := pin.c1 * low_approximation,
      c2 := pin.c2 * low_approximation, c3 := pin.c3 }

/-- Function `process`: the row-parallel loop maps `processPixel` over every pixel of
the region and writes only the output buffer; the data record is returned
unchanged to make the frame condition explicit. -/
def process (evalExp : (Fin 3 → ℚ) → ℚ → ℚ) (d : TonecurveData)
    (ibuf : List (List Pixel)) : TonecurveData × List (List Pixel) :=
  (d, ibuf.map fun row => row.map (processPixel evalExp d))

/-- Modelled from the spec: `dt_iop_estimate_exp` (declared outside the
excerpt) fits `y = a * x^b` to the sample points, anchored at the last sample
`(x[3], y[3])` as `y = y0 * (x*(1/x0))^g`, "solving the corresponding linear
system in log-space".  The stored coefficients are `(1/x0, y0, g)`; the
log-space solve for the exponent `g` is transcendental and is kept as the
explicit parameter `g`. -/
def dt_iop_estimate_exp (g : (Fin 4 → ℚ) → (Fin 4 → ℚ) → ℚ)
    (x y : Fin 4 → ℚ) : Fin 3 → ℚ :=
  ![1 / x 3, y 3, g x y]

/-- The x-coordinate of the luminance channel's last control point,
`p->tonecurve[ch_L][p->tonecurve_nodes[ch_L]-1].x`. -/
def xmaxOf (p : TonecurveParams) : ℚ :=
  ((p.tonecurve ch_L).getD ((p.tonecurve ch_L).length - 1) default).x

/-- Function `commit_params`: regenerates the three tables from the curves (the curve
sampler `dt_draw_curve_calc_values` lives outside the excerpt and is passed
as the parameter `calcValues`), rescales them (`*100` for L,
`*256 - 128` for a and b), copies the autoscale flag and refits the
extrapolation coefficients from 4 samples of the luminance table. -/
def commit_params (g : (Fin 4 → ℚ) → (Fin 4 → ℚ) → ℚ)
    (calcValues : CurveType → List TonecurveNode → ℕ → ℚ)
    (p : TonecurveParams) : TonecurveData :=
  let raw : Fin 3 → ℕ → ℚ := fun ch => calcValues (p.tonecurve_type ch) (p.tonecurve ch)
  let table : Fin 3 → ℕ → ℚ := fun ch k =>
    if ch = ch_L then raw ch k * 100 else raw ch k * 256 - 128
  let xm : ℚ := xmaxOf p
  let x : Fin 4 → ℚ := ![7 / 10 * xm, 8 / 10 * xm, 9 / 10 * xm, 1 * xm]
  let y : Fin 4 → ℚ := fun i => table ch_L (tblIdx (x i * 65536))
  { table := table,
    unbounded_coeffs := dt_iop_estimate_exp g x y,
    autoscale_ab := p.tonecurve_autoscale_ab }

/-- Record `dt_iop_tonecurve_1_params_t`: the version-1 parameter layout. -/
structure Tonecurve1Params where
  tonecurve_x : Fin 6 → ℚ
  tonecurve_y : Fin 6 → ℚ
  tonecurve_preset : ℤ

/-- Function `legacy_params`: migration of old parameter layouts.  The C function
returns 0 on success (writing the converted record) and 1 on failure;
this is modelled as an `Option`. -/
def legacy_params (o : Tonecurve1Params) (old_version new_version : ℤ) :
    Option TonecurveParams :=
  if old_version = 1 ∧ new_version = 3 then
    let fresh : TonecurveParams :=
      { tonecurve := ![[⟨0, 0⟩, ⟨1, 1⟩],
                       [⟨0, 0⟩, ⟨1 / 2, 1 / 2⟩, ⟨1, 1⟩],
                       [⟨0, 0⟩, ⟨1 / 2, 1 / 2⟩, ⟨1, 1⟩]],
        tonecurve_type := ![.MONOTONE_HERMITE, .MONOTONE_HERMITE, .MONOTONE_HERMITE],
        tonecurve_autoscale_ab := 1,
        tonecurve_preset := 0 }
    some { fresh with
      tonecurve := Function.update fresh.tonecurve ch_L
        ((List.finRange 6).map fun k => ⟨o.tonecurve_x k, o.tonecurve_y k⟩),
      tonecurve_type := Function.update fresh.tonecurve_type ch_L .CUBIC_SPLINE,
      tonecurve_autoscale_ab := 1,
      tonecurve_preset := o.tonecurve_preset }
  else none

/-- Fields of `dt_iop_tonecurve_gui_data_t` touched by the motion handler:
the active channel tab, last pointer coordinates and the selected point
index (`-1` none, `-2` suppressed after a delete or reset). -/
structure TonecurveGui where
  channel : Fin 3
  mouse_x : ℚ
  mouse_y : ℚ
  selected : ℤ

/-- The module state seen by the interactive editor: the parameter record
and the gui data. -/
structure EditorState where
  params : TonecurveParams
  gui : TonecurveGui

/-- A pointer-motion event: widget coordinates, the primary-button bit of
`event->state` and the widget allocation. -/
structure MotionEvent where
  x : ℚ
  y : ℚ
  button1 : Bool
  allocWidth : ℚ
  allocHeight : ℚ

/-- Constant `DT_GUI_CURVE_EDITOR_INSET`. -/
def inset : ℚ := 1

/-- Editable width `widget->allocation.width - 2*inset`. -/
def evWidth (ev : MotionEvent) : ℚ := ev.allocWidth - 2 * inset

/-- Editable height `widget->allocation.height - 2*inset`. -/
def evHeight (ev : MotionEvent) : ℚ := ev.allocHeight - 2 * inset

/-- Update `c->mouse_x = CLAMP(event->x - inset, 0, width)`. -/
def mouseXOf (ev : MotionEvent) : ℚ := rCLAMP (ev.x - inset) 0 (evWidth ev)

/-- Update `c->mouse_y = CLAMP(event->y - inset, 0, height)`. -/
def mouseYOf (ev : MotionEvent) : ℚ := rCLAMP (ev.y - inset) 0 (evHeight ev)

/-- Normalized pointer position `mx = c->mouse_x/width`. -/
def mxOf (ev : MotionEvent) : ℚ := mouseXOf ev / evWidth ev

/-- Normalized pointer position `my = 1.0 - c->mouse_y/height`. -/
def myOf (ev : MotionEvent) : ℚ := 1 - mouseYOf ev / evHeight ev

/-- The guard `autoscale_ab && ch != ch_L` at the top of the motion handler
and of `scrolled`: when autoscale is on, the a and b curves are not modified. -/
def blockedChroma (s : EditorState) : Prop :=
  s.params.tonecurve_autoscale_ab ≠ 0 ∧ s.gui.channel ≠ ch_L

instance (s : EditorState) : Decidable (blockedChroma s) := by
  unfold blockedChroma; infer_instance

/-- Insertion index of the drag-insert branch: index 0 if
`tonecurve[0].x > mx`, else the first later index whose x exceeds `mx`,
else `nodes` (the C code reaches that through the `selected == -1`
fall-through after the scan). -/
def insertIndex : List TonecurveNode → ℚ → ℕ
  | [], _ => 0
  | node :: rest, mx => if mx < node.x then 0 else insertIndex rest mx + 1

/-- The hover scan of the motion handler: running squared-distance minimum
(seeded with `.04f*.04f`) and index of the nearest node so far. -/
def hoverLoop (mx my : ℚ) : List TonecurveNode → ℕ → ℚ → ℤ → ℚ × ℤ
  | [], _, minv, nearest => (minv, nearest)
  | node :: rest, k, minv, nearest =>
    let dist : ℚ := (my - node.y) * (my - node.y) + (mx - node.x) * (mx - node.x)
    if dist < minv then hoverLoop mx my rest (k + 1) dist (k : ℤ)
    else hoverLoop mx my rest (k + 1) minv nearest

/-- Nearest node within the fixed selection radius, `-1` when none. -/
def hoverNearest (tonecurve : List TonecurveNode) (mx my : ℚ) : ℤ :=
  (hoverLoop mx my tonecurve 0 ((4 / 100 : ℚ) * (4 / 100)) (-1)).2

/-- Replace one channel's node list in the parameter record. -/
def setCurve (p : TonecurveParams) (ch : Fin 3) (curve : List TonecurveNode) :
    TonecurveParams :=
  { p with tonecurve := Function.update p.tonecurve ch curve }

/-- Handler `dt_iop_tonecurve_motion_notify`: the pointer-motion handler.  With the
primary button held it moves the selected point (deleting it on an ordering
violation when more than 2 nodes remain) or inserts a new point; without the
button it recomputes the hovered selection.  When autoscale is on and the
active channel is a chroma channel the handler bails out at the top. -/
def dt_iop_tonecurve_motion_notify (ev : MotionEvent) (s : EditorState) :
    EditorState :=
  let ch : Fin 3 := s.gui.channel
  let tonecurve : List TonecurveNode := s.params.tonecurve ch
  let nodes : ℕ := tonecurve.length
  if blockedChroma s then s
  else
    let gui0 : TonecurveGui :=
      { s.gui with mouse_x := mouseXOf ev, mouse_y := mouseYOf ev }
    let mx : ℚ := mxOf ev
    let my : ℚ := myOf ev
    if ev.button1 = true then
      if 0 ≤ s.gui.selected then
        let sel : ℕ := s.gui.selected.toNat
        let moved : List TonecurveNode := tonecurve.set sel ⟨mx, my⟩
        if 2 < nodes ∧
            ((0 < sel ∧ mx ≤ (moved.getD (sel - 1) default).x) ∨
             (sel < nodes - 1 ∧ (moved.getD (sel + 1) default).x ≤ mx)) then
          { params := setCurve s.params ch (moved.eraseIdx sel),
            gui := { gui0 with selected := -2 } }
        else
          { params := setCurve s.params ch moved, gui := gui0 }
      else if nodes < 20 ∧ -1 ≤ s.gui.selected then
        let sel : ℕ := insertIndex tonecurve mx
        { params := setCurve s.params ch (tonecurve.insertIdx sel ⟨mx, my⟩),
          gui := { gui0 with selected := (sel : ℤ) } }
      else
        { params := s.params, gui := gui0 }
    else
      { params := s.params,
        gui := { gui0 with selected := hoverNearest tonecurve mx my } }

/-- Scroll direction of `GdkEventScroll`. -/
inductive ScrollDirection where
  | up : ScrollDirection
  | down : ScrollDirection
  | other : ScrollDirection

/-- Handler `scrolled`: adjusts the selected point's y by `0.001` per step, clamped
to `[0, 1]`; a no-op when autoscale is on and the channel is a chroma
channel, or when no point is selected. -/
def scrolled (dir : ScrollDirection) (s : EditorState) : EditorState :=
  let ch : Fin 3 := s.gui.channel
  if blockedChroma s then s
  else if 0 ≤ s.gui.selected then
    let sel : ℕ := s.gui.selected.toNat
    let tonecurve : List TonecurveNode := s.params.tonecurve ch
    let old : TonecurveNode := tonecurve.getD sel default
    let newY : ℚ :=
      match dir with
      | .up => max 0 (old.y + 1 / 1000)
      | .down => min 1 (old.y - 1 / 1000)
      | .other => old.y
    { s with params := setCurve s.params ch (tonecurve.set sel ⟨old.x, newY⟩) }
  else s

/-- Run a sequence of motion events through the handler. -/
def runEvents (evs : List MotionEvent) (s : EditorState) : EditorState :=
  evs.foldl (fun t ev => dt_iop_tonecurve_motion_notify ev t) s

/-- The ordering invariant: node x-coordinates strictly increase by index. -/
def strictIncr (curve : List TonecurveNode) : Prop :=
  curve.Pairwise fun p q => p.x < q.x

/-- Selection well-formedness: the selected index never points past the
active channel's node count. -/
def selWF (s : EditorState) : Prop :=
  s.gui.selected < ((s.params.tonecurve s.gui.channel).length : ℤ)

/-- Events under which the handler preserves strict ordering: non-mutating
events, drag-moves on channels with more than 2 nodes, and drag-inserts at a
pointer x distinct from every existing node x. -/
def safeEvent (s : EditorState) (ev : MotionEvent) : Prop :=
  ev.button1 = false ∨
  blockedChroma s ∨
  (0 ≤ s.gui.selected ∧ 2 < (s.params.tonecurve s.gui.channel).length) ∨
  (s.gui.selected < 0 ∧
    ∀ node ∈ s.params.tonecurve s.gui.channel, node.x ≠ mxOf ev)

/-- Safety of a whole event trace, checked along the trajectory. -/
def safeTrace : EditorState → List MotionEvent → Prop
  | _, [] => True
  | s, ev :: evs =>
    safeEvent s ev ∧ safeTrace (dt_iop_tonecurve_motion_notify ev s) evs

/-! Derived definitions used by the handler lemmas, and the concrete
inputs used to instantiate the claim theorems. -/

/-- Abbreviation for the gui record after the pointer-coordinate update. -/
def guiAfter (ev : MotionEvent) (s : EditorState) (sel : ℤ) : TonecurveGui :=
  { channel := s.gui.channel, mouse_x := mouseXOf ev, mouse_y := mouseYOf ev,
    selected := sel }

/-- The delete test of the move branch, after the selected node was set to
the pointer position. -/
def orderViolation (s : EditorState) (ev : MotionEvent) : Prop :=
  let tonecurve := s.params.tonecurve s.gui.channel
  let nodes := tonecurve.length
  let sel := s.gui.selected.toNat
  let moved := tonecurve.set sel ⟨mxOf ev, myOf ev⟩
  2 < nodes ∧
    ((0 < sel ∧ mxOf ev ≤ (moved.getD (sel - 1) default).x) ∨
     (sel < nodes - 1 ∧ (moved.getD (sel + 1) default).x ≤ mxOf ev))

instance (s : EditorState) (ev : MotionEvent) :
    Decidable (orderViolation s ev) := by
  unfold orderViolation; infer_instance

def w1evalExp : (Fin 3 → ℚ) → ℚ → ℚ := fun _ q => q

def w1d : TonecurveData :=
  { table := fun _ k => (k : ℚ), unbounded_coeffs := fun _ => 1,
    autoscale_ab := 1 }

def w1pin : Pixel := ⟨1, 3, 5, 7⟩

def w2p : TonecurveParams :=
  { tonecurve := ![[⟨0, 0⟩, ⟨1, 1⟩], [⟨0, 0⟩, ⟨1, 1⟩], [⟨0, 0⟩, ⟨1, 1⟩]],
    tonecurve_type := ![.CUBIC_SPLINE, .CUBIC_SPLINE, .CUBIC_SPLINE],
    tonecurve_autoscale_ab := 0, tonecurve_preset := 0 }

def w2calc : CurveType → List TonecurveNode → ℕ → ℚ :=
  fun _ _ k => (k : ℚ) / 65536

def w2g : (Fin 4 → ℚ) → (Fin 4 → ℚ) → ℚ := fun _ _ => 1

def w2evalExp : (Fin 3 → ℚ) → ℚ → ℚ := fun _ _ => 42

def w2pin : Pixel := ⟨200, 0, 0, 1⟩

/-- C2 counterexample data: autoscale on and a pixel at `L_in = 1/200`,
below both the near-zero threshold and `xmax`. -/
def c2p : TonecurveParams :=
  { tonecurve := ![[⟨0, 0⟩, ⟨1, 1⟩], [⟨0, 0⟩, ⟨1, 1⟩], [⟨0, 0⟩, ⟨1, 1⟩]],
    tonecurve_type := ![.CUBIC_SPLINE, .CUBIC_SPLINE, .CUBIC_SPLINE],
    tonecurve_autoscale_ab := 1, tonecurve_preset := 0 }

def c2pin : Pixel := ⟨1 / 2, 0, 0, 1⟩

def w8o : Tonecurve1Params :=
  { tonecurve_x := fun k => (k : ℚ) / 5, tonecurve_y := fun k => (k : ℚ) / 5,
    tonecurve_preset := 7 }

def w3curve : List TonecurveNode := [⟨0, 0⟩, ⟨1, 1⟩]

def w3params : TonecurveParams :=
  { tonecurve := ![w3curve, w3curve, w3curve],
    tonecurve_type := ![.MONOTONE_HERMITE, .MONOTONE_HERMITE,
      .MONOTONE_HERMITE],
    tonecurve_autoscale_ab := 1, tonecurve_preset := 0 }

def w3s : EditorState :=
  { params := w3params,
    gui := { channel := 0, mouse_x := 0, mouse_y := 0, selected := -1 } }

def w3ev : MotionEvent :=
  { x := 2, y := 2, button1 := false, allocWidth := 3, allocHeight := 3 }

def c3curve : List TonecurveNode := [⟨0, 0⟩, ⟨1 / 2, 1 / 2⟩, ⟨1, 1⟩]

def c3params : TonecurveParams :=
  { tonecurve := ![c3curve, c3curve, c3curve],
    tonecurve_type := ![.MONOTONE_HERMITE, .MONOTONE_HERMITE,
      .MONOTONE_HERMITE],
    tonecurve_autoscale_ab := 0, tonecurve_preset := 0 }

def c3s : EditorState :=
  { params := c3params,
    gui := { channel := 0, mouse_x := 0, mouse_y := 0, selected := -1 } }

def c3ev : MotionEvent :=
  { x := 3 / 2, y := 3 / 2, button1 := true, allocWidth := 3, allocHeight := 3 }

def w4curve : List TonecurveNode := [⟨0, 0⟩, ⟨1 / 2, 1 / 2⟩, ⟨1, 1⟩]

def w4params : TonecurveParams :=
  { tonecurve := ![w4curve, w4curve, w4curve],
    tonecurve_type := ![.MONOTONE_HERMITE, .MONOTONE_HERMITE,
      .MONOTONE_HERMITE],
    tonecurve_autoscale_ab := 1, tonecurve_preset := 0 }

def w4s : EditorState :=
  { params := w4params,
    gui := { channel := 0, mouse_x := 0, mouse_y := 0, selected := 1 } }

def w4ev : MotionEvent :=
  { x := 2, y := 3 / 2, button1 := true, allocWidth := 3, allocHeight := 3 }

def w5curve : List TonecurveNode := [⟨0, 0⟩, ⟨1 / 2, 1 / 2⟩, ⟨1, 1⟩]

def w5params : TonecurveParams :=
  { tonecurve := ![w5curve, w5curve, w5curve],
    tonecurve_type := ![.MONOTONE_HERMITE, .MONOTONE_HERMITE,
      .MONOTONE_HERMITE],
    tonecurve_autoscale_ab := 0, tonecurve_preset := 0 }

def w5s : EditorState :=
  { params := w5params,
    gui := { channel := 0, mouse_x := 0, mouse_y := 0, selected := -1 } }

def w5ev : MotionEvent :=
  { x := 5 / 4, y := 7 / 4, button1 := true, allocWidth := 3, allocHeight := 3 }

def c6curve : List TonecurveNode := [⟨0, 0⟩, ⟨1 / 2, 1 / 2⟩, ⟨1, 1⟩]

def c6params : TonecurveParams :=
  { tonecurve := ![c6curve, c6curve, c6curve],
    tonecurve_type := ![.MONOTONE_HERMITE, .MONOTONE_HERMITE,
      .MONOTONE_HERMITE],
    tonecurve_autoscale_ab := 1, tonecurve_preset := 0 }

def c6paramsOff : TonecurveParams :=
  { c6params with tonecurve_autoscale_ab := 0 }

def c6on : EditorState :=
  { params := c6params,
    gui := { channel := ch_a, mouse_x := 0, mouse_y := 0, selected := -1 } }

def c6off : EditorState :=
  { params := c6paramsOff,
    gui := { channel := ch_a, mouse_x := 0, mouse_y := 0, selected := -1 } }

def c6ev : MotionEvent :=
  { x := 3 / 2, y := 3 / 2, button1 := false, allocWidth := 3,
    allocHeight := 3 }

def c10curve : List TonecurveNode := [⟨0, 0⟩, ⟨1, 1⟩]

def c10params : TonecurveParams :=
  { tonecurve := ![c10curve, c10curve, c10curve],
    tonecurve_type := ![.MONOTONE_HERMITE, .MONOTONE_HERMITE,
      .MONOTONE_HERMITE],
    tonecurve_autoscale_ab := 0, tonecurve_preset := 0 }

def c10s : EditorState :=
  { params := c10params,
    gui := { channel := 0, mouse_x := 0, mouse_y := 0, selected := 1 } }

def c10ev : MotionEvent :=
  { x := 1, y := 3 / 2, button1 := true, allocWidth := 3, allocHeight := 3 }

def w10curve : List TonecurveNode := [⟨0, 0⟩, ⟨1 / 2, 1 / 2⟩, ⟨1, 1⟩]

def w10params : TonecurveParams :=
  { tonecurve := ![w10curve, w10curve, w10curve],
    tonecurve_type := ![.MONOTONE_HERMITE, .MONOTONE_HERMITE,
      .MONOTONE_HERMITE],
    tonecurve_autoscale_ab := 0, tonecurve_preset := 0 }

def w10s : EditorState :=
  { params := w10params,
    gui := { channel := 0, mouse_x := 0, mouse_y := 0, selected := 1 } }

def w10ev : MotionEvent :=
  { x := 2, y := 3 / 2, button1 := true, allocWidth := 3, allocHeight := 3 }

lemma eraseIdx_set_same (xs : List TonecurveNode) (n : ℕ) (v : TonecurveNode) :
    (xs.set n v).eraseIdx n = xs.eraseIdx n := by
  induction xs generalizing n with
  | nil => rfl
  | cons a t ih =>
    cases n with
    | zero => rfl
    | succ m => simp [List.set, List.eraseIdx, ih]

lemma strictIncr_eraseIdx {xs : List TonecurveNode} (n : ℕ)
    (h : strictIncr xs) : strictIncr (xs.eraseIdx n) :=
  List.Pairwise.sublist (List.eraseIdx_sublist xs n) h

lemma strictIncr_set {xs : List TonecurveNode} {n : ℕ} {v : TonecurveNode}
    (hinc : strictIncr xs)
    (hlo : ∀ i (hi : i < xs.length), i < n → (xs.get ⟨i, hi⟩).x < v.x)
    (hhi : ∀ i (hi : i < xs.length), n < i → v.x < (xs.get ⟨i, hi⟩).x) :
    strictIncr (xs.set n v) := by
  simp only [strictIncr, List.pairwise_iff_getElem] at hinc ⊢
  intro i j hi hj hij
  have hi2 : i < xs.length := by simpa using hi
  have hj2 : j < xs.length := by simpa using hj
  rw [List.getElem_set, List.getElem_set]
  rcases lt_trichotomy i n with hin | hin | hin
  · rcases lt_trichotomy j n with hjn | hjn | hjn
    · simpa [Nat.ne_of_gt hin, Nat.ne_of_gt hjn] using hinc i j hi2 hj2 hij
    · subst hjn
      have := hlo i hi2 hin
      rw [List.get_eq_getElem] at this
      simpa [Nat.ne_of_gt hin] using this
    · simpa [Nat.ne_of_gt hin, Nat.ne_of_lt hjn] using hinc i j hi2 hj2 hij
  · subst hin
    have := hhi j hj2 hij
    simp only [List.get_eq_getElem] at this
    rw [if_pos rfl, if_neg (Nat.ne_of_lt hij)]
    exact this
  · have hjn : n < j := hin.trans hij
    simpa [Nat.ne_of_lt hin, Nat.ne_of_lt hjn] using hinc i j hi2 hj2 hij

lemma insertIndex_le_length (xs : List TonecurveNode) (mx : ℚ) :
    insertIndex xs mx ≤ xs.length := by
  induction xs with
  | nil => simp [insertIndex]
  | cons a t ih =>
    simp only [insertIndex, List.length_cons]
    split
    · omega
    · omega

lemma strictIncr_insertIndex {xs : List TonecurveNode} {mx my : ℚ}
    (hinc : strictIncr xs) (hfresh : ∀ node ∈ xs, node.x ≠ mx) :
    strictIncr (xs.insertIdx (insertIndex xs mx) ⟨mx, my⟩) := by
  induction xs with
  | nil =>
    simp [insertIndex, strictIncr]
  | cons a t ih =>
    simp only [strictIncr, List.pairwise_cons] at hinc
    by_cases hx : mx < a.x
    · simp only [insertIndex, if_pos hx, List.insertIdx_zero]
      simp only [strictIncr, List.pairwise_cons]
      refine ⟨?_, ?_, ?_⟩
      · intro q hq
        rcases List.mem_cons.mp hq with h | h
        · subst h; exact hx
        · exact hx.trans (hinc.1 q h)
      · exact hinc.1
      · exact hinc.2
    · have hax : a.x < mx :=
        lt_of_le_of_ne (not_lt.mp hx) (hfresh a (List.mem_cons_self a t))
      simp only [insertIndex, if_neg hx, List.insertIdx_succ_cons]
      simp only [strictIncr, List.pairwise_cons]
      refine ⟨?_, ?_⟩
      · intro q hq
        rcases (List.mem_insertIdx (insertIndex_le_length t mx)).mp hq with h | h
        · subst h; exact hax
        · exact hinc.1 q h
      · exact ih hinc.2 (fun node h => hfresh node (List.mem_cons_of_mem a h))

lemma insertIndex_spec_below {xs : List TonecurveNode} {mx : ℚ} :
    ∀ i (hi : i < xs.length), i < insertIndex xs mx →
      ¬ mx < (xs.get ⟨i, hi⟩).x := by
  induction xs with
  | nil => intro i hi; simp at hi
  | cons a t ih =>
    intro i hi hlt
    simp only [insertIndex] at hlt
    split at hlt
    · omega
    · cases i with
      | zero =>
        rename_i hxa
        simp only [List.get_eq_getElem, List.getElem_cons_zero]
        exact hxa
      | succ m =>
        exact ih m (by simpa using Nat.lt_of_succ_lt_succ hi) (by omega)

lemma insertIndex_spec_at {xs : List TonecurveNode} {mx : ℚ}
    (h : insertIndex xs mx < xs.length) :
    mx < (xs.get ⟨insertIndex xs mx, h⟩).x := by
  induction xs with
  | nil => simp at h
  | cons a t ih =>
    by_cases hx : mx < a.x
    · simp [insertIndex, hx]
    · have h2 : insertIndex t mx < t.length := by
        have := h; simp only [insertIndex, if_neg hx, List.length_cons] at this
        omega
      simpa [insertIndex, hx] using ih h2

lemma hoverLoop_snd_lt (mx my : ℚ) (l : List TonecurveNode) :
    ∀ (k : ℕ) (minv : ℚ) (near : ℤ), near < (k : ℤ) →
      (hoverLoop mx my l k minv near).2 < (k : ℤ) + l.length := by
  induction l with
  | nil =>
    intro k minv near h
    simpa [hoverLoop] using h
  | cons a t ih =>
    intro k minv near h
    simp only [hoverLoop, List.length_cons]
    split
    · have h2 := ih (k + 1)
        ((my - a.y) * (my - a.y) + (mx - a.x) * (mx - a.x)) (k : ℤ)
        (by push_cast; omega)
      push_cast at h2 ⊢
      omega
    · have h2 := ih (k + 1) minv near (by push_cast; omega)
      push_cast at h2 ⊢
      omega

lemma hoverNearest_lt (tonecurve : List TonecurveNode) (mx my : ℚ) :
    hoverNearest tonecurve mx my < (tonecurve.length : ℤ) := by
  have := hoverLoop_snd_lt mx my tonecurve 0 ((4 / 100 : ℚ) * (4 / 100)) (-1)
    (by norm_num)
  simpa [hoverNearest] using this

/-! Branch characterizations of the motion handler. -/

lemma motion_blocked {ev : MotionEvent} {s : EditorState}
    (h : blockedChroma s) :
    dt_iop_tonecurve_motion_notify ev s = s := by
  simp only [dt_iop_tonecurve_motion_notify, if_pos h]

lemma motion_hover {ev : MotionEvent} {s : EditorState}
    (hb : ¬ blockedChroma s) (hbtn : ev.button1 = false) :
    dt_iop_tonecurve_motion_notify ev s =
      { params := s.params,
        gui := guiAfter ev s
          (hoverNearest (s.params.tonecurve s.gui.channel) (mxOf ev) (myOf ev)) } := by
  simp only [dt_iop_tonecurve_motion_notify, if_neg hb, hbtn, Bool.false_eq_true,
    if_false, guiAfter]

lemma motion_move_delete {ev : MotionEvent} {s : EditorState}
    (hb : ¬ blockedChroma s) (hbtn : ev.button1 = true)
    (hsel : 0 ≤ s.gui.selected) (hcond : orderViolation s ev) :
    dt_iop_tonecurve_motion_notify ev s =
      { params := setCurve s.params s.gui.channel
          (((s.params.tonecurve s.gui.channel).set s.gui.selected.toNat
              ⟨mxOf ev, myOf ev⟩).eraseIdx s.gui.selected.toNat),
        gui := guiAfter ev s (-2) } := by
  simp only [orderViolation] at hcond
  simp only [dt_iop_tonecurve_motion_notify, if_neg hb, hbtn, if_pos hsel,
    if_true, if_pos hcond, guiAfter]

lemma motion_move_keep {ev : MotionEvent} {s : EditorState}
    (hb : ¬ blockedChroma s) (hbtn : ev.button1 = true)
    (hsel : 0 ≤ s.gui.selected) (hcond : ¬ orderViolation s ev) :
    dt_iop_tonecurve_motion_notify ev s =
      { params := setCurve s.params s.gui.channel
          ((s.params.tonecurve s.gui.channel).set s.gui.selected.toNat
            ⟨mxOf ev, myOf ev⟩),
        gui := guiAfter ev s s.gui.selected } := by
  simp only [orderViolation] at hcond
  simp only [dt_iop_tonecurve_motion_notify, if_neg hb, hbtn, if_pos hsel,
    if_true, if_neg hcond, guiAfter]

lemma motion_insert {ev : MotionEvent} {s : EditorState}
    (hb : ¬ blockedChroma s) (hbtn : ev.button1 = true)
    (hsel : s.gui.selected = -1)
    (hcap : (s.params.tonecurve s.gui.channel).length < 20) :
    dt_iop_tonecurve_motion_notify ev s =
      { params := setCurve s.params s.gui.channel
          ((s.params.tonecurve s.gui.channel).insertIdx
            (insertIndex (s.params.tonecurve s.gui.channel) (mxOf ev))
            ⟨mxOf ev, myOf ev⟩),
        gui := guiAfter ev s
          ((insertIndex (s.params.tonecurve s.gui.channel) (mxOf ev) : ℤ)) } := by
  have hneg : ¬ 0 ≤ s.gui.selected := by omega
  have hguard : (s.params.tonecurve s.gui.channel).length < 20 ∧
      -1 ≤ s.gui.selected := ⟨hcap, by omega⟩
  simp only [dt_iop_tonecurve_motion_notify, if_neg hb, hbtn, if_true,
    if_neg hneg, if_pos hguard, guiAfter]

lemma motion_stuck {ev : MotionEvent} {s : EditorState}
    (hb : ¬ blockedChroma s) (hbtn : ev.button1 = true)
    (hneg : ¬ 0 ≤ s.gui.selected)
    (hguard : ¬ ((s.params.tonecurve s.gui.channel).length < 20 ∧
      -1 ≤ s.gui.selected)) :
    dt_iop_tonecurve_motion_notify ev s =
      { params := s.params, gui := guiAfter ev s s.gui.selected } := by
  simp only [dt_iop_tonecurve_motion_notify, if_neg hb, hbtn, if_true,
    if_neg hneg, if_neg hguard, guiAfter]

lemma motion_channel_const (ev : MotionEvent) (s : EditorState) :
    (dt_iop_tonecurve_motion_notify ev s).gui.channel = s.gui.channel := by
  simp only [dt_iop_tonecurve_motion_notify, guiAfter]
  split
  · rfl
  split
  · split
    · split <;> rfl
    · split <;> rfl
  · rfl

lemma motion_other_channels (ev : MotionEvent) (s : EditorState) (ch : Fin 3)
    (hch : ch ≠ s.gui.channel) :
    (dt_iop_tonecurve_motion_notify ev s).params.tonecurve ch =
      s.params.tonecurve ch := by
  simp only [dt_iop_tonecurve_motion_notify, setCurve]
  split
  · rfl
  split
  · split
    · split <;> simp [Function.update_noteq hch]
    · split <;> simp [Function.update_noteq hch]
  · rfl

/-! Preservation lemmas: selection well-formedness and strict ordering. -/

lemma getD_set_ne (xs : List TonecurveNode) (n j : ℕ) (v d : TonecurveNode)
    (h : n ≠ j) : (xs.set n v).getD j d = xs.getD j d := by
  simp [List.getD, List.getElem?_set_ne h]

lemma strictIncr_moved {xs : List TonecurveNode} {sel : ℕ} {mx my : ℚ}
    (hsel : sel < xs.length) (hinc : strictIncr xs)
    (hno1 : ¬ (0 < sel ∧ mx ≤ ((xs.set sel ⟨mx, my⟩).getD (sel - 1) default).x))
    (hno2 : ¬ (sel < xs.length - 1 ∧
      ((xs.set sel ⟨mx, my⟩).getD (sel + 1) default).x ≤ mx)) :
    strictIncr (xs.set sel ⟨mx, my⟩) := by
  have hget : ∀ j (hj : j < xs.length), j ≠ sel →
      ((xs.set sel ⟨mx, my⟩).getD j default) = xs.get ⟨j, hj⟩ := by
    intro j hj hne
    rw [getD_set_ne xs sel j _ _ (Ne.symm hne), List.getD_eq_getElem xs default hj]
    simp
  have hpw := List.pairwise_iff_getElem.mp hinc
  apply strictIncr_set hinc
  · intro i hi hilt
    have hselpos : 0 < sel := Nat.lt_of_le_of_lt (Nat.zero_le i) hilt
    have hsm1 : sel - 1 < xs.length := by omega
    have hb : ¬ mx ≤ ((xs.set sel ⟨mx, my⟩).getD (sel - 1) default).x := by
      intro hle; exact hno1 ⟨hselpos, hle⟩
    rw [hget (sel - 1) hsm1 (by omega)] at hb
    have hlt : (xs.get ⟨sel - 1, hsm1⟩).x < mx := not_le.mp hb
    rcases Nat.lt_or_ge i (sel - 1) with hi1 | hi1
    · have := hpw i (sel - 1) hi hsm1 hi1
      simp only [List.get_eq_getElem]
      calc (xs.get ⟨i, hi⟩).x = xs[i].x := by simp
        _ < xs[sel - 1].x := this
        _ = (xs.get ⟨sel - 1, hsm1⟩).x := by simp
        _ < mx := hlt
    · have : i = sel - 1 := by omega
      subst this
      exact hlt
  · intro i hi hilt
    have hsp1 : sel + 1 < xs.length := by omega
    have hsellt : sel < xs.length - 1 := by omega
    have hb : ¬ ((xs.set sel ⟨mx, my⟩).getD (sel + 1) default).x ≤ mx := by
      intro hle; exact hno2 ⟨hsellt, hle⟩
    rw [hget (sel + 1) hsp1 (by omega)] at hb
    have hlt : mx < (xs.get ⟨sel + 1, hsp1⟩).x := not_le.mp hb
    rcases Nat.lt_or_ge (sel + 1) i with hi1 | hi1
    · have := hpw (sel + 1) i hsp1 hi hi1
      calc mx < (xs.get ⟨sel + 1, hsp1⟩).x := hlt
        _ = xs[sel + 1].x := by simp
        _ < xs[i].x := this
        _ = (xs.get ⟨i, hi⟩).x := by simp
    · have : i = sel + 1 := by omega
      subst this
      exact hlt

lemma selWF_step (s : EditorState) (ev : MotionEvent) (hwf : selWF s) :
    selWF (dt_iop_tonecurve_motion_notify ev s) := by
  by_cases hb : blockedChroma s
  · rw [motion_blocked hb]; exact hwf
  rcases Bool.dichotomy ev.button1 with hbtn | hbtn
  · rw [motion_hover hb hbtn]
    simpa [selWF, guiAfter] using
      hoverNearest_lt (s.params.tonecurve s.gui.channel) (mxOf ev) (myOf ev)
  by_cases hsel : 0 ≤ s.gui.selected
  · by_cases hcond : orderViolation s ev
    · rw [motion_move_delete hb hbtn hsel hcond]
      simp only [selWF, guiAfter, setCurve, Function.update_same]
      have : (0 : ℤ) ≤ (((((s.params.tonecurve s.gui.channel).set
          s.gui.selected.toNat ⟨mxOf ev, myOf ev⟩).eraseIdx
          s.gui.selected.toNat).length : ℤ)) := Int.natCast_nonneg _
      omega
    · rw [motion_move_keep hb hbtn hsel hcond]
      simp only [selWF, guiAfter, setCurve, Function.update_same,
        List.length_set]
      exact hwf
  · by_cases hguard : (s.params.tonecurve s.gui.channel).length < 20 ∧
        -1 ≤ s.gui.selected
    · have hm1 : s.gui.selected = -1 := by omega
      rw [motion_insert hb hbtn hm1 hguard.1]
      simp only [selWF, guiAfter, setCurve, Function.update_same]
      rw [List.length_insertIdx _ _
        (insertIndex_le_length (s.params.tonecurve s.gui.channel) (mxOf ev))]
      have := insertIndex_le_length (s.params.tonecurve s.gui.channel) (mxOf ev)
      omega
    · rw [motion_stuck hb hbtn hsel hguard]
      simpa [selWF, guiAfter] using hwf

lemma strictIncr_step (s : EditorState) (ev : MotionEvent)
    (hwf : selWF s) (hsafe : safeEvent s ev) (ch : Fin 3)
    (hinc : strictIncr (s.params.tonecurve ch)) :
    strictIncr ((dt_iop_tonecurve_motion_notify ev s).params.tonecurve ch) := by
  by_cases hch : ch = s.gui.channel
  case neg => rw [motion_other_channels ev s ch hch]; exact hinc
  subst hch
  by_cases hb : blockedChroma s
  · rw [motion_blocked hb]; exact hinc
  rcases Bool.dichotomy ev.button1 with hbtn | hbtn
  · rw [motion_hover hb hbtn]; exact hinc
  by_cases hsel : 0 ≤ s.gui.selected
  · have hnodes : 2 < (s.params.tonecurve s.gui.channel).length := by
      rcases hsafe with h | h | h | h
      · rw [h] at hbtn; exact absurd hbtn (by simp)
      · exact absurd h hb
      · exact h.2
      · omega
    have hselnat : s.gui.selected.toNat <
        (s.params.tonecurve s.gui.channel).length := by
      simp only [selWF] at hwf; omega
    by_cases hcond : orderViolation s ev
    · rw [motion_move_delete hb hbtn hsel hcond]
      simp only [setCurve, Function.update_same]
      rw [eraseIdx_set_same]
      exact strictIncr_eraseIdx _ hinc
    · rw [motion_move_keep hb hbtn hsel hcond]
      simp only [setCurve, Function.update_same]
      simp only [orderViolation] at hcond
      have hAB := fun hor => hcond ⟨hnodes, hor⟩
      obtain ⟨hno1, hno2⟩ := not_or.mp hAB
      exact strictIncr_moved hselnat hinc hno1 hno2
  · by_cases hguard : (s.params.tonecurve s.gui.channel).length < 20 ∧
        -1 ≤ s.gui.selected
    · have hm1 : s.gui.selected = -1 := by omega
      rw [motion_insert hb hbtn hm1 hguard.1]
      simp only [setCurve, Function.update_same]
      have hfresh : ∀ node ∈ s.params.tonecurve s.gui.channel,
          node.x ≠ mxOf ev := by
        rcases hsafe with h | h | h | h
        · rw [h] at hbtn; exact absurd hbtn (by simp)
        · exact absurd h hb
        · omega
        · exact h.2
      exact strictIncr_insertIndex hinc hfresh
    · rw [motion_stuck hb hbtn hsel hguard]
      exact hinc

lemma strictIncr_trace (s : EditorState) (evs : List MotionEvent)
    (hwf : selWF s) (hsafe : safeTrace s evs) (ch : Fin 3)
    (hinc : strictIncr (s.params.tonecurve ch)) :
    strictIncr ((runEvents evs s).params.tonecurve ch) := by
  induction evs generalizing s with
  | nil => exact hinc
  | cons ev rest ih =>
    rcases hsafe with ⟨h1, h2⟩
    exact ih (dt_iop_tonecurve_motion_notify ev s) (selWF_step s ev hwf) h2
      (strictIncr_step s ev hwf h1 ch hinc)

/-! Lemmas about the pixel path. -/

lemma processPixel_c3 (evalExp : (Fin 3 → ℚ) → ℚ → ℚ) (d : TonecurveData)
    (pin : Pixel) : (processPixel evalExp d pin).c3 = pin.c3 := by
  simp only [processPixel]
  split
  · rfl
  split
  · rfl
  · rfl

lemma getD_map_row (g : Pixel → Pixel) (rows : List (List Pixel)) (k : ℕ) :
    (rows.map (fun row => row.map g)).getD k [] = (rows.getD k []).map g := by
  rcases Nat.lt_or_ge k rows.length with hk | hk
  · rw [List.getD_eq_getElem _ _ (by simpa using hk),
      List.getD_eq_getElem _ _ hk, List.getElem_map]
  · rw [List.getD_eq_default _ _ (by simpa using hk),
      List.getD_eq_default _ _ hk]
    rfl

lemma getD_map_pixel_c3 (evalExp : (Fin 3 → ℚ) → ℚ → ℚ) (d : TonecurveData)
    (row : List Pixel) (j : ℕ) :
    ((row.map (processPixel evalExp d)).getD j default).c3 =
      (row.getD j default).c3 := by
  rcases Nat.lt_or_ge j row.length with hj | hj
  · rw [List.getD_eq_getElem _ _ (by simpa using hj),
      List.getD_eq_getElem _ _ hj, List.getElem_map]
    exact processPixel_c3 evalExp d _
  · rw [List.getD_eq_default _ _ (by simpa using hj),
      List.getD_eq_default _ _ hj]

lemma tblIdx_threshold :
    tblIdx ((1 / 100 : ℚ) * 65535) = Int.toNat ⌊(1 / 100 : ℚ) * 65535⌋ := by
  norm_num [tblIdx, cint, iCLAMP]

/-! The claim theorems. -/

/-- C1: with autoscale on, a pixel whose normalized input luminance
`in[0]/100` strictly exceeds 0.01 gets its chroma outputs scaled by the
ratio of output to input luminance, and a pixel at or below the threshold
(boundary included) gets all three output channels equal to the input
channel times the luminance table value at index `floor(0.01*65535)`,
with no division by the input luminance. -/
theorem C1_autoscale_near_zero_carveout
    (evalExp : (Fin 3 → ℚ) → ℚ → ℚ) (d : TonecurveData) (pin : Pixel)
    (hauto : d.autoscale_ab ≠ 0) :
    (1 / 100 < pin.c0 / 100 →
      (processPixel evalExp d pin).c1 =
          pin.c1 * (processPixel evalExp d pin).c0 / pin.c0 ∧
      (processPixel evalExp d pin).c2 =
          pin.c2 * (processPixel evalExp d pin).c0 / pin.c0) ∧
    (pin.c0 / 100 ≤ 1 / 100 →
      (processPixel evalExp d pin).c0 =
          pin.c0 * d.table ch_L (Int.toNat ⌊(1 / 100 : ℚ) * 65535⌋) ∧
      (processPixel evalExp d pin).c1 =
          pin.c1 * d.table ch_L (Int.toNat ⌊(1 / 100 : ℚ) * 65535⌋) ∧
      (processPixel evalExp d pin).c2 =
          pin.c2 * d.table ch_L (Int.toNat ⌊(1 / 100 : ℚ) * 65535⌋)) := by
  rw [← tblIdx_threshold]
  constructor
  · intro hgt
    simp only [processPixel, if_neg hauto, if_pos hgt]
    exact ⟨trivial, trivial⟩
  · intro hle
    have hgt : ¬ (1 / 100 : ℚ) < pin.c0 / 100 := not_lt.mpr hle
    simp only [processPixel, if_neg hauto, if_neg hgt]
    exact ⟨trivial, trivial, trivial⟩

theorem C1_witness :
    w1d.autoscale_ab ≠ 0 ∧ w1pin.c0 / 100 ≤ 1 / 100 ∧
    (processPixel w1evalExp w1d w1pin).c1 =
      w1pin.c1 * w1d.table ch_L (Int.toNat ⌊(1 / 100 : ℚ) * 65535⌋) :=
  ⟨by norm_num [w1d], by norm_num [w1pin],
    ((C1_autoscale_near_zero_carveout w1evalExp w1d w1pin
      (by norm_num [w1d])).2 (by norm_num [w1pin])).2.1⟩

/-- C9: `process` writes the fourth channel through unmodified for every
pixel of every region, and returns the data record (tables, coefficients,
autoscale flag) it read unchanged. -/
theorem C9_process_pure_passthrough (evalExp : (Fin 3 → ℚ) → ℚ → ℚ)
    (d : TonecurveData) (ibuf : List (List Pixel)) :
    (process evalExp d ibuf).1 = d ∧
    ∀ k j, (((process evalExp d ibuf).2.getD k []).getD j default).c3 =
      ((ibuf.getD k []).getD j default).c3 := by
  refine ⟨rfl, ?_⟩
  intro k j
  simp only [process]
  rw [getD_map_row]
  exact getD_map_pixel_c3 evalExp d _ j

/-- C7: `commit_params` refits the extrapolation coefficients from exactly
4 samples of the (already rescaled) luminance table, taken at x-positions
`0.7*xm, 0.8*xm, 0.9*xm, xm` with `xm` the x-coordinate of the luminance
channel's last control point, each read at table index
`CLAMP((int)(x*0x10000), 0, 0xffff)`. -/
theorem C7_extrapolation_refit_samples (g : (Fin 4 → ℚ) → (Fin 4 → ℚ) → ℚ)
    (calcValues : CurveType → List TonecurveNode → ℕ → ℚ)
    (p : TonecurveParams) :
    (commit_params g calcValues p).unbounded_coeffs =
      dt_iop_estimate_exp g
        ![7 / 10 * xmaxOf p, 8 / 10 * xmaxOf p, 9 / 10 * xmaxOf p,
          1 * xmaxOf p]
        (fun i => (commit_params g calcValues p).table ch_L
          (tblIdx ((![7 / 10 * xmaxOf p, 8 / 10 * xmaxOf p, 9 / 10 * xmaxOf p,
            1 * xmaxOf p] i) * 65536))) := rfl

lemma commit_params_coeff0 (g : (Fin 4 → ℚ) → (Fin 4 → ℚ) → ℚ)
    (calcValues : CurveType → List TonecurveNode → ℕ → ℚ)
    (p : TonecurveParams) :
    (commit_params g calcValues p).unbounded_coeffs 0 = 1 / xmaxOf p := by
  simp [commit_params, dt_iop_estimate_exp]

/-- C2 (amended): the luminance output is dispatched on `L_in < xm` with
`xm = 1/coeffs[0]`, which equals the x-coordinate of the luminance channel's
last control point after `commit_params` — table lookup at index
`CLAMP((int)(L_in*0xffff), 0, 0xffff)` below `xm`, exponential extrapolation
at or above it — except when autoscale is on and `L_in ≤ 0.01`, where the
near-zero carve-out overwrites the luminance output with
`in[0]` times the table value at the threshold index. -/
theorem C2_luminance_lookup_or_extrapolate
    (g : (Fin 4 → ℚ) → (Fin 4 → ℚ) → ℚ)
    (calcValues : CurveType → List TonecurveNode → ℕ → ℚ)
    (evalExp : (Fin 3 → ℚ) → ℚ → ℚ) (p : TonecurveParams) (pin : Pixel) :
    ((commit_params g calcValues p).autoscale_ab = 0 ∨
        1 / 100 < pin.c0 / 100 →
      (processPixel evalExp (commit_params g calcValues p) pin).c0 =
        if pin.c0 / 100 < xmaxOf p then
          (commit_params g calcValues p).table ch_L
            (tblIdx (pin.c0 / 100 * 65535))
        else evalExp (commit_params g calcValues p).unbounded_coeffs
          (pin.c0 / 100)) ∧
    ((commit_params g calcValues p).autoscale_ab ≠ 0 →
        pin.c0 / 100 ≤ 1 / 100 →
      (processPixel evalExp (commit_params g calcValues p) pin).c0 =
        pin.c0 * (commit_params g calcValues p).table ch_L
          (tblIdx ((1 / 100 : ℚ) * 65535))) := by
  have hxm : 1 / (commit_params g calcValues p).unbounded_coeffs 0 =
      xmaxOf p := by
    rw [commit_params_coeff0, one_div_one_div]
  constructor
  · intro hcase
    rcases hcase with h0 | hgt
    · simp only [processPixel, hxm, if_pos h0]
    · by_cases h0 : (commit_params g calcValues p).autoscale_ab = 0
      · simp only [processPixel, hxm, if_pos h0]
      · simp only [processPixel, hxm, if_neg h0, if_pos hgt]
  · intro h0 hle
    have hgt : ¬ (1 / 100 : ℚ) < pin.c0 / 100 := not_lt.mpr hle
    simp only [processPixel, hxm, if_neg h0, if_neg hgt]

theorem C2_witness :
    0 < xmaxOf w2p ∧
    (processPixel w2evalExp (commit_params w2g w2calc w2p) w2pin).c0 =
      if w2pin.c0 / 100 < xmaxOf w2p then
        (commit_params w2g w2calc w2p).table ch_L
          (tblIdx (w2pin.c0 / 100 * 65535))
      else w2evalExp (commit_params w2g w2calc w2p).unbounded_coeffs
        (w2pin.c0 / 100) :=
  ⟨by norm_num [xmaxOf, w2p],
    (C2_luminance_lookup_or_extrapolate w2g w2calc w2evalExp w2p w2pin).1
      (Or.inl (by norm_num [commit_params, w2p]))⟩

theorem C2_counterexample :
    c2pin.c0 / 100 < xmaxOf c2p ∧
    (processPixel w2evalExp (commit_params w2g w2calc c2p) c2pin).c0 ≠
      (commit_params w2g w2calc c2p).table ch_L
        (tblIdx (c2pin.c0 / 100 * 65535)) := by
  constructor
  · norm_num [xmaxOf, c2p, c2pin]
  · have hidx1 : tblIdx ((13107 : ℚ) / 40) = 327 := by
      norm_num [tblIdx, cint, iCLAMP]
      decide
    have hidx2 : tblIdx ((13107 : ℚ) / 20) = 655 := by
      norm_num [tblIdx, cint, iCLAMP]
      decide
    simp only [processPixel, commit_params, c2p, c2pin, w2calc, w2g,
      dt_iop_estimate_exp, xmaxOf]
    norm_num [hidx1, hidx2]

lemma update_vec3_zero {α : Type} (a b c v : α) :
    Function.update (![a, b, c] : Fin 3 → α) 0 v = ![v, b, c] := by
  funext i
  fin_cases i <;> simp [Function.update]

/-- C8: the migration succeeds exactly for the version pair (1, 3); it then
copies the 6 old x and y values into the luminance channel (node count 6,
type CUBIC_SPLINE), resets the chroma channels to the 3-node default with
MONOTONE_HERMITE type, sets autoscale to 1 and preserves the preset; every
other version pair fails. -/
theorem C8_legacy_migration (o : Tonecurve1Params) (ov nv : ℤ) :
    (legacy_params o ov nv =
      if ov = 1 ∧ nv = 3 then
        some
          { tonecurve := ![(List.finRange 6).map
                (fun k => ⟨o.tonecurve_x k, o.tonecurve_y k⟩),
              [⟨0, 0⟩, ⟨1 / 2, 1 / 2⟩, ⟨1, 1⟩],
              [⟨0, 0⟩, ⟨1 / 2, 1 / 2⟩, ⟨1, 1⟩]],
            tonecurve_type := ![.CUBIC_SPLINE, .MONOTONE_HERMITE,
              .MONOTONE_HERMITE],
            tonecurve_autoscale_ab := 1,
            tonecurve_preset := o.tonecurve_preset }
      else none) ∧
    ∀ n ∈ legacy_params o 1 3,
      (n.tonecurve ch_L).length = 6 ∧ (n.tonecurve ch_a).length = 3 ∧
      (n.tonecurve ch_b).length = 3 := by
  constructor
  · by_cases h : ov = 1 ∧ nv = 3
    · rw [if_pos h]
      simp only [legacy_params, if_pos h, update_vec3_zero]
    · rw [if_neg h]
      simp only [legacy_params, if_neg h]
  · intro n hn
    simp only [legacy_params, if_pos (And.intro rfl rfl), update_vec3_zero,
      Option.mem_def, if_true, and_self, Option.some_inj] at hn
    subst hn
    simp

theorem C8_witness :
    legacy_params w8o 2 3 = none ∧
    ∃ n, legacy_params w8o 1 3 = some n ∧ (n.tonecurve ch_L).length = 6 := by
  refine ⟨?_, ?_⟩
  · have h := (C8_legacy_migration w8o 2 3).1
    simpa using h
  · have h1 := (C8_legacy_migration w8o 1 3).1
    rw [if_pos ⟨rfl, rfl⟩] at h1
    exact ⟨_, h1, ((C8_legacy_migration w8o 1 3).2 _ (Option.mem_def.mpr h1)).1⟩

/-- C3 (amended): strict ordering of control-point x-coordinates is invariant
under any sequence of pointer-move drag events in which every drag-move
happens on a channel with more than 2 points and every drag-insert happens at
a pointer x distinct from every existing point's x (`safeTrace`); without
those side conditions a drag can break the order (see the counterexample:
a drag-insert at an existing point's x duplicates that x). -/
theorem C3_ordering_invariant_under_safe_drags (s : EditorState)
    (evs : List MotionEvent) (hwf : selWF s) (hsafe : safeTrace s evs)
    (ch : Fin 3) (hinc : strictIncr (s.params.tonecurve ch)) :
    strictIncr ((runEvents evs s).params.tonecurve ch) :=
  strictIncr_trace s evs hwf hsafe ch hinc

theorem C3_witness :
    selWF w3s ∧ safeTrace w3s [w3ev] ∧
    strictIncr ((runEvents [w3ev] w3s).params.tonecurve ch_L) := by
  have hwf : selWF w3s := by norm_num [selWF, w3s, w3params, w3curve]
  have hsafe : safeTrace w3s [w3ev] := ⟨Or.inl rfl, trivial⟩
  refine ⟨hwf, hsafe, ?_⟩
  exact C3_ordering_invariant_under_safe_drags w3s [w3ev] hwf hsafe ch_L
    (by norm_num [w3s, w3params, w3curve, strictIncr])

theorem C3_counterexample :
    selWF c3s ∧ strictIncr (c3s.params.tonecurve ch_L) ∧
    ¬ strictIncr
      ((dt_iop_tonecurve_motion_notify c3ev c3s).params.tonecurve ch_L) := by
  refine ⟨by norm_num [selWF, c3s, c3params, c3curve],
    by norm_num [c3s, c3params, c3curve, strictIncr], ?_⟩
  have hmx : mxOf c3ev = 1 / 2 := by
    norm_num [mxOf, mouseXOf, rCLAMP, evWidth, inset, c3ev]
  have hmy : myOf c3ev = 1 / 2 := by
    norm_num [myOf, mouseYOf, rCLAMP, evHeight, inset, c3ev]
  have hres := @motion_insert c3ev c3s
    (by norm_num [blockedChroma, c3s, c3params]) rfl rfl
    (by norm_num [c3s, c3params, c3curve])
  rw [hres]
  simp only [setCurve]
  have hchan : c3s.gui.channel = ch_L := rfl
  rw [hchan, Function.update_same, hmx, hmy]
  have hcur : c3s.params.tonecurve ch_L = c3curve := by
    norm_num [c3s, c3params]
  rw [hcur]
  have hidx : insertIndex c3curve (1 / 2) = 2 := by
    norm_num [c3curve, insertIndex]
  rw [hidx]
  norm_num [c3curve, strictIncr]

/-- Helper: after a delete or reset set the selection to `-2`; a further
motion event with the primary button held then mutates nothing, because the
insert branch requires `selected >= -1`. -/
lemma suppressed_blocks_mutation (s : EditorState) (ev : MotionEvent)
    (hsel : s.gui.selected = -2) (hbtn : ev.button1 = true) :
    (dt_iop_tonecurve_motion_notify ev s).params = s.params := by
  by_cases hb : blockedChroma s
  · rw [motion_blocked hb]
  · rw [motion_stuck hb hbtn (by omega) (by rw [hsel]; omega)]

/-- C4: dragging point index 1 of a 3-point curve to an x at or beyond point
index 2's x deletes point 1 (later points shift down), reduces the node
count from 3 to 2, sets the selection to the suppressed sentinel `-2`, and
any further motion of the same gesture (button still held) mutates nothing. -/
theorem C4_drag_middle_point_past_right_neighbor (s : EditorState)
    (ev : MotionEvent) (p0 p1 p2 : TonecurveNode)
    (hb : ¬ blockedChroma s) (hbtn : ev.button1 = true)
    (hcurve : s.params.tonecurve s.gui.channel = [p0, p1, p2])
    (hsel : s.gui.selected = 1) (hmx : p2.x ≤ mxOf ev) :
    (dt_iop_tonecurve_motion_notify ev s).params.tonecurve s.gui.channel =
      [p0, p2] ∧
    ((dt_iop_tonecurve_motion_notify ev s).params.tonecurve
      s.gui.channel).length = 2 ∧
    (dt_iop_tonecurve_motion_notify ev s).gui.selected = -2 ∧
    ∀ ev2 : MotionEvent, ev2.button1 = true →
      (dt_iop_tonecurve_motion_notify ev2
        (dt_iop_tonecurve_motion_notify ev s)).params =
      (dt_iop_tonecurve_motion_notify ev s).params := by
  have hviol : orderViolation s ev := by
    simp only [orderViolation, hcurve, hsel]
    refine ⟨by norm_num, Or.inr ⟨by norm_num, ?_⟩⟩
    simpa [List.set, List.getD] using hmx
  have hres := motion_move_delete hb hbtn (by omega) hviol
  rw [hres]
  refine ⟨?_, ?_, ?_, ?_⟩
  · simp [setCurve, Function.update_same, hcurve, hsel, List.set,
      List.eraseIdx]
  · simp [setCurve, Function.update_same, hcurve, hsel, List.set,
      List.eraseIdx]
  · rfl
  · intro ev2 hbtn2
    exact suppressed_blocks_mutation _ ev2 rfl hbtn2

theorem C4_witness :
    ¬ blockedChroma w4s ∧ (1 : ℚ) ≤ mxOf w4ev ∧
    (dt_iop_tonecurve_motion_notify w4ev w4s).params.tonecurve
      w4s.gui.channel = [⟨0, 0⟩, ⟨1, 1⟩] ∧
    (dt_iop_tonecurve_motion_notify w4ev w4s).gui.selected = -2 := by
  have hb : ¬ blockedChroma w4s := by norm_num [blockedChroma, w4s, w4params]
  have hmx : mxOf w4ev = 1 := by
    norm_num [mxOf, mouseXOf, rCLAMP, evWidth, inset, w4ev]
  have h := C4_drag_middle_point_past_right_neighbor w4s w4ev
    ⟨0, 0⟩ ⟨1 / 2, 1 / 2⟩ ⟨1, 1⟩ hb rfl
    (by norm_num [w4s, w4params, w4curve]) rfl (by rw [hmx])
  exact ⟨hb, by rw [hmx], h.1, h.2.2.1⟩

/-- C5: with the primary button held, no point selected (`selected = -1`,
not the suppressed `-2`) and fewer than 20 nodes, a new point is inserted at
`(mx, my)` at the first index whose existing x exceeds `mx` (later points
shift up), that index becomes selected and the node count grows by one; in a
3-point curve with `mx` strictly between point 0's and point 1's x the new
point lands at index 1 (count 4); at 20 nodes nothing is inserted and the
parameters are unchanged. -/
theorem C5_drag_insert (s : EditorState) (ev : MotionEvent)
    (hb : ¬ blockedChroma s) (hbtn : ev.button1 = true)
    (hsel : s.gui.selected = -1) :
    ((s.params.tonecurve s.gui.channel).length < 20 →
      (dt_iop_tonecurve_motion_notify ev s).params.tonecurve s.gui.channel =
        (s.params.tonecurve s.gui.channel).insertIdx
          (insertIndex (s.params.tonecurve s.gui.channel) (mxOf ev))
          ⟨mxOf ev, myOf ev⟩ ∧
      (dt_iop_tonecurve_motion_notify ev s).gui.selected =
        (insertIndex (s.params.tonecurve s.gui.channel) (mxOf ev) : ℤ) ∧
      ((dt_iop_tonecurve_motion_notify ev s).params.tonecurve
        s.gui.channel).length =
        (s.params.tonecurve s.gui.channel).length + 1 ∧
      (∀ i (hi : i < (s.params.tonecurve s.gui.channel).length),
        i < insertIndex (s.params.tonecurve s.gui.channel) (mxOf ev) →
          ¬ mxOf ev < ((s.params.tonecurve s.gui.channel).get ⟨i, hi⟩).x) ∧
      (∀ h : insertIndex (s.params.tonecurve s.gui.channel) (mxOf ev) <
          (s.params.tonecurve s.gui.channel).length,
        mxOf ev < ((s.params.tonecurve s.gui.channel).get
          ⟨insertIndex (s.params.tonecurve s.gui.channel) (mxOf ev), h⟩).x)) ∧
    (∀ p0 p1 p2 : TonecurveNode,
      s.params.tonecurve s.gui.channel = [p0, p1, p2] →
      p0.x < mxOf ev → mxOf ev < p1.x →
      (dt_iop_tonecurve_motion_notify ev s).params.tonecurve s.gui.channel =
        [p0, ⟨mxOf ev, myOf ev⟩, p1, p2] ∧
      (dt_iop_tonecurve_motion_notify ev s).gui.selected = 1) ∧
    ((s.params.tonecurve s.gui.channel).length = 20 →
      (dt_iop_tonecurve_motion_notify ev s).params = s.params) := by
  refine ⟨?_, ?_, ?_⟩
  · intro hcap
    rw [motion_insert hb hbtn hsel hcap]
    refine ⟨by simp [setCurve, Function.update_same], rfl, ?_, ?_, ?_⟩
    · simp only [setCurve, Function.update_same]
      rw [List.length_insertIdx _ _
        (insertIndex_le_length (s.params.tonecurve s.gui.channel) (mxOf ev))]
    · intro i hi hlt
      exact insertIndex_spec_below i hi hlt
    · intro h
      exact insertIndex_spec_at h
  · intro p0 p1 p2 hcurve h0 h1
    have hcap : (s.params.tonecurve s.gui.channel).length < 20 := by
      rw [hcurve]; norm_num
    have hidx : insertIndex (s.params.tonecurve s.gui.channel) (mxOf ev) = 1 := by
      rw [hcurve]
      simp [insertIndex, lt_asymm h0, h1]
    rw [motion_insert hb hbtn hsel hcap]
    constructor
    · simp only [setCurve, Function.update_same]
      rw [hidx, hcurve]
      rfl
    · simp only [guiAfter, hidx]
      rfl
  · intro hcap
    have hneg : ¬ 0 ≤ s.gui.selected := by omega
    have hguard : ¬ ((s.params.tonecurve s.gui.channel).length < 20 ∧
        -1 ≤ s.gui.selected) := by
      rw [hcap]; intro h; omega
    rw [motion_stuck hb hbtn hneg hguard]

theorem C5_witness :
    ¬ blockedChroma w5s ∧ w5s.gui.selected = -1 ∧
    (dt_iop_tonecurve_motion_notify w5ev w5s).params.tonecurve
      w5s.gui.channel =
      [⟨0, 0⟩, ⟨1 / 4, 1 / 4⟩, ⟨1 / 2, 1 / 2⟩, ⟨1, 1⟩] ∧
    (dt_iop_tonecurve_motion_notify w5ev w5s).gui.selected = 1 := by
  have hb : ¬ blockedChroma w5s := by norm_num [blockedChroma, w5s, w5params]
  have hmx : mxOf w5ev = 1 / 4 := by
    norm_num [mxOf, mouseXOf, rCLAMP, evWidth, inset, w5ev]
  have hmy : myOf w5ev = 1 / 4 := by
    norm_num [myOf, mouseYOf, rCLAMP, evHeight, inset, w5ev]
  have h := ((C5_drag_insert w5s w5ev hb rfl rfl).2.1
    ⟨0, 0⟩ ⟨1 / 2, 1 / 2⟩ ⟨1, 1⟩
    (by norm_num [w5s, w5params, w5curve])
    (by rw [hmx]; norm_num) (by rw [hmx]; norm_num))
  refine ⟨hb, rfl, ?_, h.2⟩
  rw [h.1, hmx, hmy]

/-- C6 (amended): when autoscale is on and the active channel is a chroma
channel, a pointer-motion event and a scroll event are complete no-ops on
the editor state: the point list, node count, point coordinates, the
selection and the stored pointer position are all left unchanged — hover and
selection updates are rejected together with the mutations, since the
handler bails out before the hover scan. -/
theorem C6_autoscale_chroma_fully_blocked (s : EditorState) (ev : MotionEvent)
    (dir : ScrollDirection)
    (hauto : s.params.tonecurve_autoscale_ab ≠ 0)
    (hch : s.gui.channel ≠ ch_L) :
    dt_iop_tonecurve_motion_notify ev s = s ∧ scrolled dir s = s := by
  have hb : blockedChroma s := ⟨hauto, hch⟩
  exact ⟨motion_blocked hb, by simp only [scrolled, if_pos hb]⟩

theorem C6_witness :
    c6on.params.tonecurve_autoscale_ab ≠ 0 ∧ c6on.gui.channel ≠ ch_L ∧
    dt_iop_tonecurve_motion_notify c6ev c6on = c6on ∧
    scrolled ScrollDirection.up c6on = c6on := by
  have h := C6_autoscale_chroma_fully_blocked c6on c6ev ScrollDirection.up
    (by norm_num [c6on, c6params]) (by decide)
  exact ⟨by norm_num [c6on, c6params], by decide, h.1, h.2⟩

theorem C6_counterexample :
    (dt_iop_tonecurve_motion_notify c6ev c6on).gui.selected = -1 ∧
    (dt_iop_tonecurve_motion_notify c6ev c6off).gui.selected = 1 := by
  constructor
  · rw [motion_blocked (by exact ⟨by norm_num [c6on, c6params], by decide⟩)]
    rfl
  · rw [motion_hover (by norm_num [blockedChroma, c6off, c6paramsOff, c6params])
      rfl]
    have hmx : mxOf c6ev = 1 / 2 := by
      norm_num [mxOf, mouseXOf, rCLAMP, evWidth, inset, c6ev]
    have hmy : myOf c6ev = 1 / 2 := by
      norm_num [myOf, mouseYOf, rCLAMP, evHeight, inset, c6ev]
    simp only [guiAfter, hmx, hmy]
    have hcur : c6off.params.tonecurve c6off.gui.channel = c6curve := by
      norm_num [c6off, c6paramsOff, c6params]
    rw [hcur]
    norm_num [c6curve, hoverNearest, hoverLoop]

/-- C10 (amended): the order test of a drag-move is non-strict — moving the
selected point to an x exactly equal to a neighbor's x already deletes it
when the channel has more than 2 points — and consequently a drag-move on a
channel with more than 2 strictly ordered points never leaves two points
with the same x.  On a 2-point channel the check is skipped and a drag-move
can produce two points with equal x (see the counterexample). -/
theorem C10_nonstrict_order_violation :
    (∀ (s : EditorState) (ev : MotionEvent) (p0 p1 p2 : TonecurveNode),
      ¬ blockedChroma s → ev.button1 = true →
      s.params.tonecurve s.gui.channel = [p0, p1, p2] →
      s.gui.selected = 1 → mxOf ev = p2.x →
      (dt_iop_tonecurve_motion_notify ev s).params.tonecurve
        s.gui.channel = [p0, p2] ∧
      (dt_iop_tonecurve_motion_notify ev s).gui.selected = -2) ∧
    (∀ (s : EditorState) (ev : MotionEvent),
      ¬ blockedChroma s → ev.button1 = true → 0 ≤ s.gui.selected →
      selWF s → 2 < (s.params.tonecurve s.gui.channel).length →
      strictIncr (s.params.tonecurve s.gui.channel) →
      ((dt_iop_tonecurve_motion_notify ev s).params.tonecurve
        s.gui.channel).Pairwise fun p q => p.x ≠ q.x) := by
  constructor
  · intro s ev p0 p1 p2 hb hbtn hcurve hsel hmx
    have hviol : orderViolation s ev := by
      simp only [orderViolation, hcurve, hsel]
      refine ⟨by norm_num, Or.inr ⟨by norm_num, ?_⟩⟩
      simp [List.set, List.getD, hmx]
    rw [motion_move_delete hb hbtn (by omega) hviol]
    refine ⟨?_, rfl⟩
    simp [setCurve, Function.update_same, hcurve, hsel, List.set,
      List.eraseIdx]
  · intro s ev hb hbtn hsel hwf hnodes hinc
    have hsafe : safeEvent s ev := Or.inr (Or.inr (Or.inl ⟨hsel, hnodes⟩))
    have h := strictIncr_step s ev hwf hsafe s.gui.channel hinc
    exact h.imp fun hlt => ne_of_lt hlt

theorem C10_counterexample :
    strictIncr (c10s.params.tonecurve ch_L) ∧ c10ev.button1 = true ∧
    ((dt_iop_tonecurve_motion_notify c10ev c10s).params.tonecurve ch_L).map
      TonecurveNode.x = [0, 0] := by
  refine ⟨by norm_num [c10s, c10params, c10curve, strictIncr], rfl, ?_⟩
  have hmx : mxOf c10ev = 0 := by
    norm_num [mxOf, mouseXOf, rCLAMP, evWidth, inset, c10ev]
  have hnoviol : ¬ orderViolation c10s c10ev := by
    simp only [orderViolation]
    intro h
    have := h.1
    norm_num [c10s, c10params, c10curve] at this
  rw [motion_move_keep (by norm_num [blockedChroma, c10s, c10params]) rfl
    (by norm_num [c10s]) hnoviol]
  simp only [setCurve]
  have hch : c10s.gui.channel = ch_L := rfl
  rw [hch, Function.update_same]
  have hcur : c10s.params.tonecurve ch_L = c10curve := by
    norm_num [c10s, c10params]
  rw [hcur, hmx]
  norm_num [c10curve, c10s, List.set]

theorem C10_witness :
    mxOf w10ev = (1 : ℚ) ∧
    (dt_iop_tonecurve_motion_notify w10ev w10s).params.tonecurve
      w10s.gui.channel = [⟨0, 0⟩, ⟨1, 1⟩] ∧
    ((dt_iop_tonecurve_motion_notify w10ev w10s).params.tonecurve
      w10s.gui.channel).Pairwise (fun p q => p.x ≠ q.x) := by
  have hb : ¬ blockedChroma w10s := by
    norm_num [blockedChroma, w10s, w10params]
  have hmx : mxOf w10ev = 1 := by
    norm_num [mxOf, mouseXOf, rCLAMP, evWidth, inset, w10ev]
  have h1 := (C10_nonstrict_order_violation).1 w10s w10ev
    ⟨0, 0⟩ ⟨1 / 2, 1 / 2⟩ ⟨1, 1⟩ hb rfl
    (by norm_num [w10s, w10params, w10curve]) rfl (by rw [hmx])
  have h2 := (C10_nonstrict_order_violation).2 w10s w10ev hb rfl
    (by norm_num [w10s]) (by norm_num [selWF, w10s, w10params, w10curve])
    (by norm_num [w10s, w10params, w10curve])
    (by norm_num [w10s, w10params, w10curve, strictIncr])
  exact ⟨hmx, h1.1, h2⟩

end Tonecurve

